import Mathlib

/-!
Verification of the double-buffered append-only writer in
`src/atoms3/src/writer.cpp` (M5 AtomS3 / INA226 power monitor).

The module state (`state`, `queue`, `mutex`, `events`, `task`, `cur_buff`,
`used`, the two buffer planes) is modelled as an explicit record
`WriterState`.  FreeRTOS handles are modelled as allocation flags
(`true` = non-NULL); the contents of the active buffer plane are the byte
list `buf` (so `used = buf.length` is the write cursor); `cur_buff` is the
plane index (1 or 2).  Commands submitted with `xQueueSend` are recorded in
the ghost trace `sent` (in submission order: the channel is FIFO, so this is
exactly the order the writer task dequeues them).  Outcomes of fallible
primitives that the code checks are supplied as oracles: `sendOk` is a
stream of outcomes for successive `xQueueSend` calls (exhausted stream =
success, the `portMAX_DELAY` default), lock acquisition and the allocations
in `writer_start` are boolean parameters.  `rotations` is a ghost counter of
buffer rotations.  Machine integers stay within `int`/`size_t` range here,
so they are modelled as `Nat`.
-/

namespace Writer

/-- Buffer capacity: BUFF_SIZE in writer.cpp (16384). -/
def BUFF_SIZE : Nat := 16384

/-- Stands for DEFAULT_ERROR (`__LINE__` in the source): the exact value
varies by line but is always nonzero, which is all the callers test. -/
def DEFAULT_ERROR : Nat := 1

/-- Command opcode (struct Command's anonymous enum). -/
inductive Op where
  | OP_FLUSH
  | OP_EXIT
deriving DecidableEq

/-- struct Command: opcode, payload (snapshot of the referenced buffer
contents at submission time) and byte count. -/
structure Cmd where
  op : Op
  data : List Nat
  size : Nat
deriving DecidableEq

/-- The module's static state, plus the ghost trace `sent`, the ghost
counter `rotations` and the `xQueueSend` outcome oracle `sendOk`. -/
structure WriterState where
  state : Nat
  queue : Bool
  mutex : Bool
  events : Bool
  task : Bool
  curBuff : Nat
  used : Nat
  buf : List Nat
  sent : List Cmd
  sendOk : List Bool
  rotations : Nat
deriving DecidableEq

/-- All statics at load time: state 0, every handle NULL, cur_buff =
buff_plane1, used = 0. -/
def initialState : WriterState :=
  { state := 0, queue := false, mutex := false, events := false, task := false,
    curBuff := 1, used := 0, buf := [], sent := [], sendOk := [], rotations := 0 }

/-- xQueueSend with portMAX_DELAY: consumes the next oracle outcome (an
exhausted oracle means success); on success the command joins the FIFO
trace. -/
def chanSend (c : Cmd) (st : WriterState) : Bool × WriterState :=
  match st.sendOk with
  | [] => (true, { st with sent := st.sent ++ [c] })
  | ok :: rest =>
      (ok, { st with sendOk := rest, sent := if ok then st.sent ++ [c] else st.sent })

/-- push_byte (writer.cpp:111-150).  `cur_buff[used++] = b`; when `used`
reaches BUFF_SIZE a Flush command referencing the full plane is submitted,
the planes swap, `used` resets to 0 and the rotation edge `*dst` is set.
The swap and reset happen even when the submission fails, exactly as in the
source. -/
def push_byte (b : Nat) (dst : Bool) (st : WriterState) : Nat × Bool × WriterState :=
  if st.used + 1 = BUFF_SIZE then
    match chanSend { op := Op.OP_FLUSH, data := st.buf ++ [b], size := BUFF_SIZE }
        { st with buf := st.buf ++ [b], used := st.used + 1 } with
    | (ok, st2) =>
        (if ok then 0 else DEFAULT_ERROR,
         if dst = false then true else dst,
         { st2 with curBuff := if st2.curBuff = 1 then 2 else 1,
                    used := 0, buf := [], rotations := st2.rotations + 1 })
  else
    (0, dst, { st with buf := st.buf ++ [b], used := st.used + 1 })

/-- The push loop of writer_push(const void*, size_t, bool*)
(writer.cpp:326-334): repeated push_byte over the input bytes, breaking with
ret = DEFAULT_ERROR at the first failure.  `wrote` threads the rotation-edge
accumulator. -/
def push_loop : List Nat → Bool → WriterState → Nat × Bool × WriterState
  | [], wrote, st => (0, wrote, st)
  | b :: rest, wrote, st =>
      match push_byte b wrote st with
      | (err, wrote2, st2) =>
          if err ≠ 0 then (DEFAULT_ERROR, wrote2, st2)
          else push_loop rest wrote2 st2

/-- The push loop of writer_push(const char*, bool*) (writer.cpp:265-273):
iterates until the terminating NUL byte.  The C string is modelled as its
byte list; the loop stops at the first 0 byte (or at the end of the list). -/
def push_loop_s : List Nat → Bool → WriterState → Nat × Bool × WriterState
  | [], wrote, st => (0, wrote, st)
  | b :: rest, wrote, st =>
      if b = 0 then (0, wrote, st)
      else
        match push_byte b wrote st with
        | (err, wrote2, st2) =>
            if err ≠ 0 then (DEFAULT_ERROR, wrote2, st2)
            else push_loop_s rest wrote2 st2

/-- The frame shared by the three writer_push overloads: take the mutex
(outcome `lockOk`), check `state == 1`, run the overload's push body, and
write `*dst` only when `ret == 0` and `dst != NULL` (`dstNull = false`).
The returned `Option Bool` is the value stored through `dst` (`none` = the
caller's flag was not touched). -/
def pushWrap (dstNull lockOk : Bool) (st : WriterState)
    (body : WriterState → Nat × Bool × WriterState) : Nat × Option Bool × WriterState :=
  let ret0 : Nat := if lockOk then 0 else DEFAULT_ERROR
  let ret1 : Nat := if ret0 = 0 then (if st.state ≠ 1 then DEFAULT_ERROR else 0) else ret0
  match (if ret1 = 0 then body st else (ret1, false, st)) with
  | (ret2, wrote, st2) =>
      (ret2, if ret2 = 0 ∧ dstNull = false then some wrote else none, st2)

/-- writer_push(const char* s, bool* dst) (writer.cpp:230-288). -/
def writer_push_s (s : List Nat) (dstNull lockOk : Bool) (st : WriterState) :
    Nat × Option Bool × WriterState :=
  pushWrap dstNull lockOk st (fun st1 => push_loop_s s false st1)

/-- writer_push(const void* src, size_t size, bool* dst)
(writer.cpp:290-349): the loop reads the first `size` bytes of `src`. -/
def writer_push_raw (src : List Nat) (size : Nat) (dstNull lockOk : Bool)
    (st : WriterState) : Nat × Option Bool × WriterState :=
  pushWrap dstNull lockOk st (fun st1 => push_loop (src.take size) false st1)

/-- writer_push(uint8_t b, bool* dst) (writer.cpp:351-403): a single
push_byte, with ret = DEFAULT_ERROR when it fails. -/
def writer_push_b (b : Nat) (dstNull lockOk : Bool) (st : WriterState) :
    Nat × Option Bool × WriterState :=
  pushWrap dstNull lockOk st (fun st1 =>
    match push_byte b false st1 with
    | (err, wrote, st2) =>
        if err ≠ 0 then (DEFAULT_ERROR, wrote, st2) else (0, wrote, st2))

/-- writer_start (writer.cpp:156-228).  `pathNull` models `path == NULL`;
`qOk mOk eOk tOk` are the outcomes of xQueueCreate, xSemaphoreCreateMutex,
xEventGroupCreate and xTaskCreateUniversal.  Each allocation step mirrors
the source: it runs only while `ret == 0` and stores its handle into the
global; the post process at :215-225 deletes and nulls every handle
whenever `ret != 0` — note that this also hits the handles of a live
session when the failure came from the argument or state check.  The
function returns 0 unconditionally (writer.cpp:227 is `return 0;`, not
`return ret;`). -/
def writer_start (pathNull qOk mOk eOk tOk : Bool) (st : WriterState) :
    Nat × WriterState :=
  let ret1 : Nat := if pathNull then DEFAULT_ERROR else 0
  let ret2 : Nat := if st.state ≠ 0 then DEFAULT_ERROR else ret1
  let queue2 : Bool := if ret2 = 0 then qOk else st.queue
  let ret3 : Nat := if ret2 = 0 ∧ qOk = false then DEFAULT_ERROR else ret2
  let mutex2 : Bool := if ret3 = 0 then mOk else st.mutex
  let ret4 : Nat := if ret3 = 0 ∧ mOk = false then DEFAULT_ERROR else ret3
  let events2 : Bool := if ret4 = 0 then eOk else st.events
  let ret5 : Nat := if ret4 = 0 ∧ eOk = false then DEFAULT_ERROR else ret4
  let task2 : Bool := if ret5 = 0 then tOk else st.task
  let ret6 : Nat := if ret5 = 0 ∧ tOk = false then DEFAULT_ERROR else ret5
  if ret6 = 0 then
    (0, { st with queue := queue2, mutex := mutex2, events := events2,
                  task := task2, state := 1 })
  else
    (0, { st with queue := false, mutex := false, events := false, task := false })

/-- writer_finish (writer.cpp:405-481).  `lockOk` is the outcome of taking
the mutex.  The state check at :430 is guarded by `if (ret)` in the source
(not `if (!ret)`), so it only runs when the lock acquisition already
failed; it is reproduced verbatim here.  On the success path the source
assigns `state = 2` at :458 and then the post process at :465-478 deletes
all handles, resets the buffer bookkeeping and overwrites `state` with 0.
The middle component of the result records whether the
xEventGroupWaitBits wait for TASK_COMPLETE was performed. -/
def writer_finish (lockOk : Bool) (st : WriterState) : Nat × Bool × WriterState :=
  let ret1 : Nat := if lockOk then 0 else DEFAULT_ERROR
  let ret2 : Nat := if ret1 ≠ 0 ∧ st.state ≠ 1 then DEFAULT_ERROR else ret1
  match (if ret2 = 0
         then chanSend { op := Op.OP_EXIT, data := st.buf, size := st.used } st
         else (true, st)) with
  | (ok, st2) =>
      let ret3 : Nat := if ret2 = 0 ∧ ok = false then DEFAULT_ERROR else ret2
      if ret3 = 0 then
        (0, true,
         { st2 with queue := false, mutex := false, events := false, task := false,
                    curBuff := 1, used := 0, buf := [], state := 0 })
      else
        (ret3, false, st2)

/-- Result of a writer task run: bytes that reached storage, number of
file.write calls performed, whether the loop broke and the file was closed,
whether TASK_COMPLETE was signalled, and the final value of the task's
`error` flag. -/
structure TaskRes where
  file : List Nat
  writes : Nat
  closed : Bool
  signaled : Bool
  werror : Bool
deriving DecidableEq

/-- One iteration body of the writer task loop (writer.cpp:87-95): when no
prior error and the command carries bytes, perform one file.write (the io
oracle supplies the count the device accepted and the sync outcome; an
exhausted oracle means full success).  Returns the new error flag, the
remaining oracle, the bytes that reached the file, and the number of write
calls made (0 or 1). -/
def taskStep (error : Bool) (io : List (Nat × Bool)) (c : Cmd) :
    Bool × List (Nat × Bool) × List Nat × Nat :=
  if error = false ∧ 0 < c.size then
    match io.headD (c.size, true) with
    | (written, syncOk) =>
        (!(written == c.size && syncOk), io.tail, c.data.take written, 1)
  else
    (error, io, [], 0)

/-- The command-receive loop of the writer task (writer.cpp:83-103) run
over the FIFO sequence of commands: per command one taskStep, then break on
OP_EXIT, after which the file is closed and TASK_COMPLETE is set
(writer.cpp:105-107).  An exhausted command list without OP_EXIT leaves the
task blocked in xQueueReceive: nothing closed, nothing signalled. -/
def taskGo : Bool → List (Nat × Bool) → List Cmd → TaskRes
  | e, _, [] => { file := [], writes := 0, closed := false, signaled := false, werror := e }
  | e, io, c :: rest =>
      match taskStep e io c with
      | (e2, io2, chunk, n) =>
          if c.op = Op.OP_EXIT then
            { file := chunk, writes := n, closed := true, signaled := true, werror := e2 }
          else
            match taskGo e2 io2 rest with
            | r => { file := chunk ++ r.file, writes := n + r.writes,
                     closed := r.closed, signaled := r.signaled, werror := r.werror }

/-- writer_task_func (writer.cpp:70-109): `error` starts as the negation of
the file-open outcome, then the receive loop runs. -/
def writer_task_func (openOk : Bool) (io : List (Nat × Bool)) (cmds : List Cmd) :
    TaskRes :=
  taskGo (!openOk) io cmds

/-- Concatenation of all payloads in the send trace, i.e. every byte handed
to the writer task so far, in FIFO order. -/
def sentBytes (st : WriterState) : List Nat := (st.sent.map Cmd.data).flatten

/-- Whether a command sequence contains an OP_EXIT command. -/
def hasExit (cmds : List Cmd) : Bool := cmds.any fun c => c.op == Op.OP_EXIT

/-- The module state right after a fully successful writer_start from the
load-time state. -/
def startedState : WriterState := (writer_start false true true true true initialState).2

/-- Flush commands are well formed: OP_FLUSH carrying a full buffer. -/
def FlushWF (l : List Cmd) : Prop :=
  ∀ c ∈ l, c.op = Op.OP_FLUSH ∧ c.size = BUFF_SIZE ∧ c.data.length = BUFF_SIZE

theorem push_byte_rot (b : Nat) (w : Bool) (st : WriterState) (hs : st.sendOk = [])
    (hB : st.used + 1 = BUFF_SIZE) :
    push_byte b w st =
      (0, true,
       { st with curBuff := if st.curBuff = 1 then 2 else 1, used := 0, buf := [],
                 sent := st.sent ++ [⟨Op.OP_FLUSH, st.buf ++ [b], BUFF_SIZE⟩],
                 rotations := st.rotations + 1 }) := by
  unfold push_byte chanSend
  rw [if_pos hB]
  simp only [hs]
  cases w <;> simp

theorem push_byte_norot (b : Nat) (w : Bool) (st : WriterState)
    (hB : st.used + 1 ≠ BUFF_SIZE) :
    push_byte b w st = (0, w, { st with buf := st.buf ++ [b], used := st.used + 1 }) := by
  unfold push_byte
  rw [if_neg hB]

theorem push_loop_run : ∀ (bytes : List Nat) (w : Bool) (st : WriterState),
    st.sendOk = [] → st.used = st.buf.length → st.used < BUFF_SIZE →
    (push_loop bytes w st).1 = 0 ∧
    ((push_loop bytes w st).2.1 = true ↔
      (w = true ∨ BUFF_SIZE ≤ st.used + bytes.length)) ∧
    (push_loop bytes w st).2.2.used = (st.used + bytes.length) % BUFF_SIZE ∧
    (push_loop bytes w st).2.2.used = (push_loop bytes w st).2.2.buf.length ∧
    (push_loop bytes w st).2.2.rotations
      = st.rotations + (st.used + bytes.length) / BUFF_SIZE ∧
    (push_loop bytes w st).2.2.sendOk = [] ∧
    (push_loop bytes w st).2.2.state = st.state ∧
    sentBytes (push_loop bytes w st).2.2 ++ (push_loop bytes w st).2.2.buf
      = sentBytes st ++ st.buf ++ bytes ∧
    ∃ extra, (push_loop bytes w st).2.2.sent = st.sent ++ extra ∧ FlushWF extra := by
  intro bytes
  induction bytes with
  | nil =>
      intro w st hs h1 h2
      have e : push_loop [] w st = (0, w, st) := rfl
      rw [e]
      refine ⟨rfl, ?_, ?_, h1, ?_, hs, rfl, by simp, [], by simp, ?_⟩
      · simp only [List.length_nil, Nat.add_zero]
        constructor
        · exact Or.inl
        · rintro (hw | hw)
          · exact hw
          · exact absurd hw (by omega)
      · simp only [List.length_nil, Nat.add_zero]
        exact (Nat.mod_eq_of_lt h2).symm
      · simp only [List.length_nil, Nat.add_zero, Nat.div_eq_of_lt h2]
      · intro c hc
        cases hc
  | cons b rest ih =>
      intro w st hs h1 h2
      by_cases hB : st.used + 1 = BUFF_SIZE
      · have hred : push_loop (b :: rest) w st =
            push_loop rest true
              { st with curBuff := if st.curBuff = 1 then 2 else 1, used := 0, buf := [],
                        sent := st.sent ++ [⟨Op.OP_FLUSH, st.buf ++ [b], BUFF_SIZE⟩],
                        rotations := st.rotations + 1 } := by
          rw [push_loop, push_byte_rot b w st hs hB]
          rfl
        rw [hred]
        have hrec := ih true
          { st with curBuff := if st.curBuff = 1 then 2 else 1, used := 0, buf := [],
                    sent := st.sent ++ [⟨Op.OP_FLUSH, st.buf ++ [b], BUFF_SIZE⟩],
                    rotations := st.rotations + 1 }
          (by simpa using hs) (by simp) (by show (0:Nat) < BUFF_SIZE; simp [BUFF_SIZE])
        obtain ⟨ih1, ih2, ih3, ih4, ih5, ih6, ih7, ih8, extra, ih9, ih10⟩ := hrec
        dsimp only at ih2 ih3 ih5 ih7 ih8 ih9
        refine ⟨ih1, ?_, ?_, ih4, ?_, ih6, by rw [ih7], ?_, ?_⟩
        · simp only [List.length_cons]
          constructor
          · intro _
            exact Or.inr (by omega)
          · intro _
            exact ih2.mpr (Or.inl rfl)
        · rw [ih3]
          simp only [List.length_cons]
          simp only [BUFF_SIZE] at hB ⊢
          omega
        · rw [ih5]
          simp only [List.length_cons]
          simp only [BUFF_SIZE] at hB ⊢
          omega
        · rw [ih8]
          simp [sentBytes, List.append_assoc]
        · refine ⟨⟨Op.OP_FLUSH, st.buf ++ [b], BUFF_SIZE⟩ :: extra, ?_, ?_⟩
          · rw [ih9]
            simp
          · intro c hc
            rcases List.mem_cons.mp hc with hc | hc
            · subst hc
              refine ⟨rfl, rfl, ?_⟩
              simp only [List.length_append, List.length_cons, List.length_nil]
              omega
            · exact ih10 c hc
      · have hred : push_loop (b :: rest) w st =
            push_loop rest w { st with buf := st.buf ++ [b], used := st.used + 1 } := by
          rw [push_loop, push_byte_norot b w st hB]
          rfl
        rw [hred]
        have hrec := ih w { st with buf := st.buf ++ [b], used := st.used + 1 }
          (by simpa using hs) (by simp [h1]) (by show st.used + 1 < BUFF_SIZE; omega)
        obtain ⟨ih1, ih2, ih3, ih4, ih5, ih6, ih7, ih8, extra, ih9, ih10⟩ := hrec
        dsimp only at ih2 ih3 ih5 ih7 ih8 ih9
        refine ⟨ih1, ?_, ?_, ih4, ?_, ih6, by rw [ih7], ?_, ?_⟩
        · rw [ih2]
          simp only [List.length_cons]
          exact or_congr Iff.rfl (by omega)
        · rw [ih3]
          simp only [List.length_cons]
          congr 1
          omega
        · rw [ih5]
          simp only [List.length_cons]
          congr 2
          omega
        · rw [ih8]
          simp [sentBytes, List.append_assoc]
        · exact ⟨extra, ih9, ih10⟩

/-- Modelled from the spec (section 4.1 and 4.4): multi-byte append is
repeated single-byte append over the input bytes; the rotation-edge flag
accumulates by logical OR across the batch (push_byte already ORs into the
accumulator); the batch stops at the first append failure, returning its
error.  This is the spec-side definition that the three source overloads
are compared against. -/
def specBatchAppend : List Nat → Bool → WriterState → Nat × Bool × WriterState
  | [], w, st => (0, w, st)
  | b :: rest, w, st =>
      match push_byte b w st with
      | (err, w2, st2) => if err = 0 then specBatchAppend rest w2 st2 else (err, w2, st2)

/-- Modelled from the spec: a push call is the gate/state frame around a
specBatchAppend batch over the call's input bytes. -/
def pushGeneric (bytes : List Nat) (dstNull lockOk : Bool) (st : WriterState) :
    Nat × Option Bool × WriterState :=
  pushWrap dstNull lockOk st (fun st1 => specBatchAppend bytes false st1)

theorem push_byte_ret_cases (b : Nat) (w : Bool) (st : WriterState) :
    (push_byte b w st).1 = 0 ∨ (push_byte b w st).1 = DEFAULT_ERROR := by
  unfold push_byte
  by_cases hB : st.used + 1 = BUFF_SIZE
  · rw [if_pos hB]
    rcases h : chanSend { op := Op.OP_FLUSH, data := st.buf ++ [b], size := BUFF_SIZE }
        { st with buf := st.buf ++ [b], used := st.used + 1 } with ⟨ok, st2⟩
    cases ok
    · right; rfl
    · left; rfl
  · rw [if_neg hB]
    left; rfl

theorem push_loop_eq_spec : ∀ (bytes : List Nat) (w : Bool) (st : WriterState),
    push_loop bytes w st = specBatchAppend bytes w st := by
  intro bytes
  induction bytes with
  | nil => intro w st; rfl
  | cons b rest ih =>
      intro w st
      rw [push_loop, specBatchAppend]
      have hc := push_byte_ret_cases b w st
      rcases h : push_byte b w st with ⟨err, w2, st2⟩
      rw [h] at hc
      dsimp at hc
      rcases hc with h0 | hD
      · subst h0
        simp [ih]
      · subst hD
        simp [DEFAULT_ERROR]

theorem push_loop_s_eq : ∀ (s : List Nat) (w : Bool) (st : WriterState),
    push_loop_s s w st = push_loop (s.takeWhile fun x => x != 0) w st := by
  intro s
  induction s with
  | nil => intro w st; rfl
  | cons b rest ih =>
      intro w st
      by_cases hb : b = 0
      · subst hb
        rw [push_loop_s]
        simp [List.takeWhile_cons]
        rfl
      · rw [push_loop_s]
        rw [if_neg hb]
        have ht : (b :: rest).takeWhile (fun x => x != 0) =
            b :: rest.takeWhile (fun x => x != 0) := by
          simp [List.takeWhile_cons, hb]
        rw [ht, push_loop]
        rcases h : push_byte b w st with ⟨err, w2, st2⟩
        by_cases he : err = 0
        · subst he
          simp [ih]
        · simp [he]

theorem pushWrap_run (d : Bool) (st : WriterState)
    (body : WriterState → Nat × Bool × WriterState) (hstate : st.state = 1) :
    pushWrap d true st body =
      ((body st).1,
       if (body st).1 = 0 ∧ d = false then some (body st).2.1 else none,
       (body st).2.2) := by
  unfold pushWrap
  rcases h : body st with ⟨r, w, s2⟩
  simp [hstate, h]

theorem pushWrap_dst (lk : Bool) (st : WriterState)
    (body : WriterState → Nat × Bool × WriterState) :
    (pushWrap true lk st body).2.1 = none ∧
    (pushWrap true lk st body).1 = (pushWrap false lk st body).1 ∧
    (pushWrap true lk st body).2.2 = (pushWrap false lk st body).2.2 ∧
    (pushWrap false lk st body).2.1.isSome = ((pushWrap false lk st body).1 == 0) := by
  cases lk
  · simp [pushWrap, DEFAULT_ERROR]
  · by_cases hst : st.state = 1
    · rcases h : body st with ⟨r, w, s2⟩
      simp [pushWrap, hst, h]
      by_cases hr : r = 0 <;> simp [hr]
    · simp [pushWrap, hst, DEFAULT_ERROR]


/-- C8: the three writer_push overloads are the same operation up to input
shape: each one equals the gate/state frame around the spec's repeated
single-byte append (specBatchAppend) applied to the call's byte sequence —
the bytes before the NUL for the string form, the first `size` bytes for
the raw form, the singleton batch for the byte form.  The edge flag
accumulates by OR and the batch stops at the first append failure, as
specBatchAppend prescribes. -/
theorem push_forms_equiv (s src : List Nat) (n b : Nat) (d lk : Bool)
    (st : WriterState) :
    writer_push_s s d lk st = pushGeneric (s.takeWhile fun x => x != 0) d lk st ∧
    writer_push_raw src n d lk st = pushGeneric (src.take n) d lk st ∧
    writer_push_b b d lk st = pushGeneric [b] d lk st := by
  refine ⟨?_, ?_, ?_⟩
  · unfold writer_push_s pushGeneric
    congr 1
    funext st1
    rw [push_loop_s_eq, push_loop_eq_spec]
  · unfold writer_push_raw pushGeneric
    congr 1
    funext st1
    rw [push_loop_eq_spec]
  · unfold writer_push_b pushGeneric
    congr 1
    funext st1
    rw [specBatchAppend]
    have hc := push_byte_ret_cases b false st1
    rcases h : push_byte b false st1 with ⟨err, w2, s2⟩
    rw [h] at hc
    dsimp at hc
    rcases hc with h0 | hD
    · subst h0
      simp [specBatchAppend]
    · subst hD
      simp [DEFAULT_ERROR]

/-- C10: for every push overload the rotation-edge out-parameter is written
only on success with a non-null pointer: a null `dst` yields `none` while
the return code and the state are unchanged by the nullity of `dst`, and
with a non-null `dst` the flag is written (isSome) exactly when the call
returns 0. -/
theorem push_dst_frame (s src : List Nat) (n b : Nat) (lk : Bool)
    (st : WriterState) :
    ((writer_push_s s true lk st).2.1 = none ∧
     (writer_push_s s true lk st).1 = (writer_push_s s false lk st).1 ∧
     (writer_push_s s true lk st).2.2 = (writer_push_s s false lk st).2.2 ∧
     (writer_push_s s false lk st).2.1.isSome
       = ((writer_push_s s false lk st).1 == 0)) ∧
    ((writer_push_raw src n true lk st).2.1 = none ∧
     (writer_push_raw src n true lk st).1 = (writer_push_raw src n false lk st).1 ∧
     (writer_push_raw src n true lk st).2.2 = (writer_push_raw src n false lk st).2.2 ∧
     (writer_push_raw src n false lk st).2.1.isSome
       = ((writer_push_raw src n false lk st).1 == 0)) ∧
    ((writer_push_b b true lk st).2.1 = none ∧
     (writer_push_b b true lk st).1 = (writer_push_b b false lk st).1 ∧
     (writer_push_b b true lk st).2.2 = (writer_push_b b false lk st).2.2 ∧
     (writer_push_b b false lk st).2.1.isSome
       = ((writer_push_b b false lk st).1 == 0)) := by
  exact ⟨pushWrap_dst lk st _, pushWrap_dst lk st _, pushWrap_dst lk st _⟩


theorem writer_push_raw_full (st : WriterState) (bs : List Nat)
    (hstate : st.state = 1) (hs : st.sendOk = []) (hu : st.used = 0)
    (hb : st.buf = []) :
    (writer_push_raw bs bs.length false true st).1 = 0 ∧
    (writer_push_raw bs bs.length false true st).2.1
      = some (decide (BUFF_SIZE ≤ bs.length)) ∧
    (writer_push_raw bs bs.length false true st).2.2.rotations
      = st.rotations + bs.length / BUFF_SIZE := by
  have hwf : st.used = st.buf.length := by rw [hu, hb]; rfl
  have hlt : st.used < BUFF_SIZE := by rw [hu]; simp [BUFF_SIZE]
  obtain ⟨r1, r2, _, _, r5, _, _, _, _⟩ := push_loop_run (bs.take bs.length) false st hs hwf hlt
  rw [List.take_length] at r1 r2 r5
  unfold writer_push_raw
  rw [pushWrap_run false st _ hstate]
  rw [List.take_length]
  rw [hu] at r2 r5
  simp only [Nat.zero_add] at r2 r5
  refine ⟨r1, ?_, r5⟩
  rw [if_pos ⟨r1, rfl⟩]
  by_cases hle : BUFF_SIZE ≤ bs.length
  · rw [r2.mpr (Or.inr hle)]
    simp [hle]
  · have hfalse : (push_loop bs false st).2.1 = false := by
      cases hval : (push_loop bs false st).2.1
      · rfl
      · rcases r2.mp hval with hw | hw
        · cases hw
        · exact absurd hw hle
    rw [hfalse]
    simp [hle]

/-- C6: from a fresh Running session (empty active buffer), a single raw
push of exactly BUFF_SIZE bytes succeeds with rotation edge true and
exactly one rotation; BUFF_SIZE - 1 bytes give edge false and no rotation;
2*BUFF_SIZE + 5 bytes give edge true and exactly two rotations. -/
theorem rotation_threshold (st : WriterState) (b1 b2 b3 : List Nat)
    (hstate : st.state = 1) (hs : st.sendOk = []) (hu : st.used = 0)
    (hb : st.buf = []) (h1 : b1.length = BUFF_SIZE)
    (h2 : b2.length = BUFF_SIZE - 1) (h3 : b3.length = 2 * BUFF_SIZE + 5) :
    ((writer_push_raw b1 b1.length false true st).1 = 0 ∧
     (writer_push_raw b1 b1.length false true st).2.1 = some true ∧
     (writer_push_raw b1 b1.length false true st).2.2.rotations
       = st.rotations + 1) ∧
    ((writer_push_raw b2 b2.length false true st).1 = 0 ∧
     (writer_push_raw b2 b2.length false true st).2.1 = some false ∧
     (writer_push_raw b2 b2.length false true st).2.2.rotations
       = st.rotations) ∧
    ((writer_push_raw b3 b3.length false true st).1 = 0 ∧
     (writer_push_raw b3 b3.length false true st).2.1 = some true ∧
     (writer_push_raw b3 b3.length false true st).2.2.rotations
       = st.rotations + 2) := by
  obtain ⟨a1, a2, a3⟩ := writer_push_raw_full st b1 hstate hs hu hb
  obtain ⟨c1, c2, c3⟩ := writer_push_raw_full st b2 hstate hs hu hb
  obtain ⟨d1, d2, d3⟩ := writer_push_raw_full st b3 hstate hs hu hb
  have e1 : decide (BUFF_SIZE ≤ b1.length) = true := by rw [h1]; decide
  have e2 : decide (BUFF_SIZE ≤ b2.length) = false := by rw [h2]; decide
  have e3 : decide (BUFF_SIZE ≤ b3.length) = true := by rw [h3]; decide
  have f1 : b1.length / BUFF_SIZE = 1 := by rw [h1]; decide
  have f2 : b2.length / BUFF_SIZE = 0 := by rw [h2]; decide
  have f3 : b3.length / BUFF_SIZE = 2 := by rw [h3]; decide
  rw [e1] at a2
  rw [f1] at a3
  rw [e2] at c2
  rw [f2] at c3
  rw [e3] at d2
  rw [f3] at d3
  exact ⟨⟨a1, a2, a3⟩, ⟨c1, c2, c3⟩, ⟨d1, d2, by rw [d3]⟩⟩

/-- The buffer-pair invariant: the active-buffer pointer designates one of
the two planes, the write cursor equals the number of buffered bytes, and
it is strictly below capacity between operations. -/
def BuffInv (st : WriterState) : Prop :=
  (st.curBuff = 1 ∨ st.curBuff = 2) ∧ st.used = st.buf.length ∧ st.used < BUFF_SIZE

theorem chanSend_frame (c : Cmd) (st : WriterState) :
    (chanSend c st).2.buf = st.buf ∧ (chanSend c st).2.used = st.used ∧
    (chanSend c st).2.curBuff = st.curBuff ∧ (chanSend c st).2.state = st.state := by
  unfold chanSend
  rcases hso : st.sendOk with _ | ⟨ok, rest⟩ <;> simp [hso]

theorem push_byte_inv (b : Nat) (w : Bool) (st : WriterState) (h : BuffInv st) :
    BuffInv (push_byte b w st).2.2 := by
  obtain ⟨hc, h1, h2⟩ := h
  unfold push_byte
  by_cases hB : st.used + 1 = BUFF_SIZE
  · rw [if_pos hB]
    rcases hcs : chanSend { op := Op.OP_FLUSH, data := st.buf ++ [b], size := BUFF_SIZE }
        { st with buf := st.buf ++ [b], used := st.used + 1 } with ⟨ok, st2⟩
    refine ⟨?_, rfl, by simp [BUFF_SIZE]⟩
    by_cases hcb : st2.curBuff = 1 <;> simp [hcb]
  · rw [if_neg hB]
    refine ⟨hc, ?_, ?_⟩
    · show st.used + 1 = (st.buf ++ [b]).length
      simp [h1]
    · show st.used + 1 < BUFF_SIZE
      omega

theorem push_loop_inv : ∀ (bytes : List Nat) (w : Bool) (st : WriterState),
    BuffInv st → BuffInv (push_loop bytes w st).2.2 := by
  intro bytes
  induction bytes with
  | nil => intro w st h; exact h
  | cons b rest ih =>
      intro w st h
      rw [push_loop]
      have hpb := push_byte_inv b w st h
      rcases hp : push_byte b w st with ⟨err, w2, st2⟩
      rw [hp] at hpb
      dsimp at hpb ⊢
      by_cases he : err = 0
      · subst he
        simp only [ne_eq, not_true_eq_false, if_false]
        exact ih w2 st2 hpb
      · simp only [ne_eq, he, not_false_eq_true, if_true]
        exact hpb

theorem pushWrap_inv (d lk : Bool) (st : WriterState)
    (body : WriterState → Nat × Bool × WriterState)
    (hbody : BuffInv st → BuffInv (body st).2.2) (h : BuffInv st) :
    BuffInv (pushWrap d lk st body).2.2 := by
  cases lk
  · simpa [pushWrap, DEFAULT_ERROR] using h
  · by_cases hst : st.state = 1
    · have hb2 := hbody h
      rcases hm : body st with ⟨r, w, s2⟩
      rw [hm] at hb2
      simpa [pushWrap, hst, hm] using hb2
    · simpa [pushWrap, hst, DEFAULT_ERROR] using h

theorem writer_start_frame (pN q m e t : Bool) (st : WriterState) :
    (writer_start pN q m e t st).2.curBuff = st.curBuff ∧
    (writer_start pN q m e t st).2.used = st.used ∧
    (writer_start pN q m e t st).2.buf = st.buf ∧
    (writer_start pN q m e t st).2.sendOk = st.sendOk ∧
    (writer_start pN q m e t st).2.sent = st.sent := by
  unfold writer_start
  dsimp only
  refine ⟨?_, ?_, ?_, ?_, ?_⟩ <;>
    simp only [apply_ite Prod.snd, apply_ite WriterState.curBuff,
      apply_ite WriterState.used, apply_ite WriterState.buf,
      apply_ite WriterState.sendOk, apply_ite WriterState.sent, ite_self]

theorem writer_start_inv (pN q m e t : Bool) (st : WriterState) (h : BuffInv st) :
    BuffInv (writer_start pN q m e t st).2 := by
  obtain ⟨f1, f2, f3, _, _⟩ := writer_start_frame pN q m e t st
  obtain ⟨hc, h1, h2⟩ := h
  exact ⟨by rw [f1]; exact hc, by rw [f2, f3]; exact h1, by rw [f2]; exact h2⟩

theorem writer_finish_send_ok (st st2 : WriterState)
    (hcs : chanSend ⟨Op.OP_EXIT, st.buf, st.used⟩ st = (true, st2)) :
    writer_finish true st =
      (0, true, { st2 with queue := false, mutex := false, events := false,
                           task := false, curBuff := 1, used := 0, buf := [],
                           state := 0 }) := by
  unfold writer_finish
  simp [hcs]

theorem writer_finish_send_fail (st st2 : WriterState)
    (hcs : chanSend ⟨Op.OP_EXIT, st.buf, st.used⟩ st = (false, st2)) :
    writer_finish true st = (DEFAULT_ERROR, false, st2) := by
  unfold writer_finish
  simp [hcs, DEFAULT_ERROR]

theorem writer_finish_nolock (st : WriterState) :
    writer_finish false st = (DEFAULT_ERROR, false, st) := by
  unfold writer_finish
  simp [DEFAULT_ERROR]

theorem writer_finish_inv (lk : Bool) (st : WriterState) (h : BuffInv st) :
    BuffInv (writer_finish lk st).2.2 := by
  obtain ⟨hc, h1, h2⟩ := h
  cases lk
  · rw [writer_finish_nolock]
    exact ⟨hc, h1, h2⟩
  · have hfr := chanSend_frame ⟨Op.OP_EXIT, st.buf, st.used⟩ st
    rcases hcs : chanSend ⟨Op.OP_EXIT, st.buf, st.used⟩ st with ⟨ok, st2⟩
    rw [hcs] at hfr
    obtain ⟨f1, f2, f3, f4⟩ := hfr
    cases ok
    · rw [writer_finish_send_fail st st2 hcs]
      exact ⟨by rw [f3]; exact hc, by rw [f2, f1]; exact h1, by rw [f2]; exact h2⟩
    · rw [writer_finish_send_ok st st2 hcs]
      exact ⟨Or.inl rfl, rfl, by simp [BUFF_SIZE]⟩

/-- C9: every operation of the module preserves the buffer-pair invariant:
the active-buffer pointer always designates one of the two planes and after
each operation the write cursor satisfies used = buffered bytes < capacity
(the cursor reaches capacity only transiently inside push_byte's rotation,
which swaps the plane and resets used to 0 in the same step, also when the
channel submission fails — push_byte here is quantified over arbitrary
send-outcome oracles). -/
theorem buffer_pair_invariant (st : WriterState) (b byte n : Nat) (w : Bool)
    (s src : List Nat) (d lk pN qOk mOk eOk tOk fk : Bool) (h : BuffInv st) :
    BuffInv (push_byte b w st).2.2 ∧
    BuffInv (writer_push_s s d lk st).2.2 ∧
    BuffInv (writer_push_raw src n d lk st).2.2 ∧
    BuffInv (writer_push_b byte d lk st).2.2 ∧
    BuffInv (writer_start pN qOk mOk eOk tOk st).2 ∧
    BuffInv (writer_finish fk st).2.2 := by
  refine ⟨push_byte_inv b w st h, ?_, ?_, ?_, writer_start_inv pN qOk mOk eOk tOk st h,
          writer_finish_inv fk st h⟩
  · exact pushWrap_inv d lk st _ (fun h1 => by
      rw [push_loop_s_eq]
      exact push_loop_inv _ false st h1) h
  · exact pushWrap_inv d lk st _ (fun h1 => push_loop_inv _ false st h1) h
  · exact pushWrap_inv d lk st _ (fun h1 => by
      have hpb := push_byte_inv byte false st h1
      rcases hp : push_byte byte false st with ⟨err, w2, st2⟩
      rw [hp] at hpb
      dsimp only
      by_cases he : err = 0
      · subst he
        simpa using hpb
      · simpa [he] using hpb) h

theorem taskStep_error (io : List (Nat × Bool)) (c : Cmd) :
    taskStep true io c = (true, io, [], 0) := by
  unfold taskStep
  simp

theorem taskStep_write (w : Nat) (sy : Bool) (io : List (Nat × Bool)) (op : Op)
    (d : List Nat) (n : Nat) :
    taskStep false ((w, sy) :: io) ⟨op, d, n + 1⟩
      = (!(w == n + 1 && sy), io, d.take w, 1) := by
  unfold taskStep
  simp

theorem taskGo_error_sticky : ∀ (cmds : List Cmd) (io : List (Nat × Bool)),
    (taskGo true io cmds).writes = 0 ∧ (taskGo true io cmds).file = [] := by
  intro cmds
  induction cmds with
  | nil => intro io; exact ⟨rfl, rfl⟩
  | cons c rest ih =>
      intro io
      rw [taskGo, taskStep_error]
      by_cases hop : c.op = Op.OP_EXIT
      · simp [hop]
      · obtain ⟨i1, i2⟩ := ih io
        simp [hop, i1, i2]

theorem taskGo_exit_shape : ∀ (cmds : List Cmd) (e : Bool) (io : List (Nat × Bool)),
    (taskGo e io cmds).closed = hasExit cmds ∧
    (taskGo e io cmds).signaled = hasExit cmds := by
  intro cmds
  induction cmds with
  | nil => intro e io; exact ⟨rfl, rfl⟩
  | cons c rest ih =>
      intro e io
      rw [taskGo]
      rcases hstep : taskStep e io c with ⟨e2, io2, chunk, n⟩
      by_cases hop : c.op = Op.OP_EXIT
      · simp [hop, hasExit]
      · obtain ⟨i1, i2⟩ := ih e2 io2
        have hbeq : (c.op == Op.OP_EXIT) = false := by simp [hop]
        simp [hop, hasExit, hbeq] at i1 i2 ⊢
        exact ⟨i1, i2⟩

/-- C7: once the writer task's error flag is set — at open time
(writer_task_func with openOk = false starts the loop with error = true) or
by a short write / failed sync (taskStep records the error exactly when the
device wrote fewer bytes than requested or sync failed) — the rest of the
run performs zero file.write calls and appends nothing to the file, while
the loop still dequeues every command, and it closes the file and signals
TASK_COMPLETE exactly when an OP_EXIT command arrives. -/
theorem writer_task_error_sticky (io : List (Nat × Bool)) (cmds : List Cmd)
    (c : Cmd) (w n : Nat) (sy : Bool) (op : Op) (d : List Nat) :
    (taskGo true io cmds).writes = 0 ∧
    (taskGo true io cmds).file = [] ∧
    (taskGo true io cmds).closed = hasExit cmds ∧
    (taskGo true io cmds).signaled = hasExit cmds ∧
    taskStep true io c = (true, io, [], 0) ∧
    taskStep false ((w, sy) :: io) ⟨op, d, n + 1⟩
      = (!(w == n + 1 && sy), io, d.take w, 1) ∧
    (writer_task_func false io cmds).writes = 0 ∧
    (writer_task_func false io cmds).file = [] := by
  obtain ⟨a1, a2⟩ := taskGo_error_sticky cmds io
  obtain ⟨b1, b2⟩ := taskGo_exit_shape cmds true io
  exact ⟨a1, a2, b1, b2, taskStep_error io c, taskStep_write w sy io op d n, a1, a2⟩

/-- One producer call in a session: which push overload and its input. -/
inductive PushCall where
  | byteCall (b : Nat)
  | strCall (s : List Nat)
  | rawCall (src : List Nat) (n : Nat)

/-- The byte sequence a call appends: the single byte, the bytes before the
first NUL, or the first n bytes of the raw buffer. -/
def callBytes : PushCall → List Nat
  | PushCall.byteCall b => [b]
  | PushCall.strCall s => s.takeWhile fun x => x != 0
  | PushCall.rawCall src n => src.take n

/-- Execute one push call (gate acquired, non-null dst), keeping the state. -/
def doCall (c : PushCall) (st : WriterState) : WriterState :=
  match c with
  | PushCall.byteCall b => (writer_push_b b false true st).2.2
  | PushCall.strCall s => (writer_push_s s false true st).2.2
  | PushCall.rawCall src n => (writer_push_raw src n false true st).2.2

/-- A full session: writer_start from the load-time state, any sequence of
push calls, writer_finish, then the writer task drains the FIFO command
trace with a healthy storage device (open succeeded, every write accepts
all bytes, every sync succeeds).  Returns finish's return code and the
task's result. -/
def runSession (calls : List PushCall) : Nat × TaskRes :=
  ((writer_finish true (calls.foldl (fun st1 c => doCall c st1) startedState)).1,
   writer_task_func true []
     (writer_finish true (calls.foldl (fun st1 c => doCall c st1) startedState)).2.2.sent)

/-- Invariant of a running session whose appended bytes so far are acc. -/
def SessInv (acc : List Nat) (st : WriterState) : Prop :=
  st.state = 1 ∧ st.sendOk = [] ∧ st.used = st.buf.length ∧ st.used < BUFF_SIZE ∧
  FlushWF st.sent ∧ sentBytes st ++ st.buf = acc

theorem writer_push_b_eq_loop (b : Nat) (d lk : Bool) (st : WriterState) :
    writer_push_b b d lk st = pushWrap d lk st (fun st1 => push_loop [b] false st1) := rfl

theorem writer_push_s_eq_loop (s : List Nat) (d lk : Bool) (st : WriterState) :
    writer_push_s s d lk st
      = pushWrap d lk st (fun st1 => push_loop (s.takeWhile fun x => x != 0) false st1) := by
  unfold writer_push_s
  have hb : (fun st1 => push_loop_s s false st1)
      = fun st1 => push_loop (s.takeWhile fun x => x != 0) false st1 := by
    funext st1
    rw [push_loop_s_eq]
  rw [hb]

theorem FlushWF_append (a b : List Cmd) (ha : FlushWF a) (hb : FlushWF b) :
    FlushWF (a ++ b) := by
  intro c hc
  rcases List.mem_append.mp hc with h | h
  · exact ha c h
  · exact hb c h

theorem doCall_inv (c : PushCall) (acc : List Nat) (st : WriterState)
    (h : SessInv acc st) : SessInv (acc ++ callBytes c) (doCall c st) := by
  obtain ⟨hst, hs, h1, h2, hwf, htr⟩ := h
  have hbody : doCall c st = (push_loop (callBytes c) false st).2.2 := by
    cases c with
    | byteCall b =>
        show (writer_push_b b false true st).2.2 = _
        rw [writer_push_b_eq_loop, pushWrap_run false st _ hst]
        rfl
    | strCall s =>
        show (writer_push_s s false true st).2.2 = _
        rw [writer_push_s_eq_loop, pushWrap_run false st _ hst]
        rfl
    | rawCall src n =>
        show (writer_push_raw src n false true st).2.2 = _
        unfold writer_push_raw
        rw [pushWrap_run false st _ hst]
        rfl
  obtain ⟨r1, r2, r3, r4, r5, r6, r7, r8, extra, r9, r10⟩ :=
    push_loop_run (callBytes c) false st hs h1 h2
  rw [hbody]
  refine ⟨by rw [r7]; exact hst, r6, r4, ?_, ?_, by rw [r8, htr]⟩
  · rw [r3]
    have hpos : 0 < BUFF_SIZE := by simp [BUFF_SIZE]
    exact Nat.mod_lt _ hpos
  · rw [r9]
    exact FlushWF_append st.sent extra hwf r10

theorem foldl_inv : ∀ (calls : List PushCall) (acc : List Nat) (st : WriterState),
    SessInv acc st →
    SessInv (acc ++ (calls.map callBytes).flatten)
      (calls.foldl (fun st1 c => doCall c st1) st) := by
  intro calls
  induction calls with
  | nil =>
      intro acc st h
      simpa using h
  | cons c rest ih =>
      intro acc st h
      have h2 := ih (acc ++ callBytes c) (doCall c st) (doCall_inv c acc st h)
      rw [List.foldl_cons]
      have he : acc ++ ((c :: rest).map callBytes).flatten
          = (acc ++ callBytes c) ++ (rest.map callBytes).flatten := by
        simp [List.append_assoc]
      rw [he]
      exact h2

theorem startedState_inv : SessInv [] startedState := by
  refine ⟨by decide, by decide, by decide, by decide, ?_, by decide⟩
  intro c hc
  cases hc

theorem taskGo_all_ok : ∀ (fl : List Cmd) (ex : Cmd), FlushWF fl →
    ex.op = Op.OP_EXIT → ex.size = ex.data.length →
    (taskGo false [] (fl ++ [ex])).file = (fl.map Cmd.data).flatten ++ ex.data ∧
    (taskGo false [] (fl ++ [ex])).signaled = true ∧
    (taskGo false [] (fl ++ [ex])).closed = true := by
  intro fl
  induction fl with
  | nil =>
      intro ex hwf hop hsz
      rcases ex with ⟨op, d, sz⟩
      dsimp at hop hsz
      subst hop
      cases sz with
      | zero =>
          have hd : d = [] := List.eq_nil_of_length_eq_zero hsz.symm
          subst hd
          exact ⟨rfl, rfl, rfl⟩
      | succ k =>
          have hstep : taskStep false [] (⟨Op.OP_EXIT, d, k + 1⟩ : Cmd)
              = (false, [], d.take (k + 1), 1) := by
            unfold taskStep
            rw [if_pos ⟨rfl, Nat.succ_pos k⟩]
            simp
          rw [List.nil_append, taskGo, hstep]
          refine ⟨?_, rfl, rfl⟩
          show d.take (k + 1) = (List.map Cmd.data []).flatten ++ d
          rw [hsz, List.take_length]
          simp
  | cons c fl2 ih =>
      intro ex hwf hop hsz
      obtain ⟨hcop, hcsz, hcdl⟩ := hwf c (List.mem_cons_self c fl2)
      have hwf2 : FlushWF fl2 := fun x hx => hwf x (List.mem_cons_of_mem c hx)
      obtain ⟨i1, i2, i3⟩ := ih ex hwf2 hop hsz
      have hop2 : ¬ c.op = Op.OP_EXIT := by
        rw [hcop]
        intro hcon
        cases hcon
      have hspos : 0 < c.size := by
        rw [hcsz]
        simp [BUFF_SIZE]
      have hstep : taskStep false [] c = (false, [], c.data, 1) := by
        unfold taskStep
        rw [if_pos ⟨rfl, hspos⟩]
        simp only [List.headD_nil, List.tail_nil]
        have : c.data.take c.size = c.data := by
          rw [hcsz, ← hcdl]
          exact List.take_length c.data
        simp [this]
      rw [List.cons_append, taskGo, hstep]
      simp only [hop2, if_false]
      simp [i1, i2, i3]

/-- C1: for every sequence of push calls (any mix of the byte, string and
raw overloads, batched arbitrarily) followed by a successful finish, the
bytes the writer task commits to storage are exactly the concatenation of
all appended bytes in append order, finish returns 0, and TASK_COMPLETE is
signalled.  With zero calls the result is the empty (zero-length) file and
completion is still signalled. -/
theorem session_file_exact (calls : List PushCall) :
    (runSession calls).1 = 0 ∧
    (runSession calls).2.file = (calls.map callBytes).flatten ∧
    (runSession calls).2.signaled = true := by
  obtain ⟨hst, hs, h1, h2, hwf, htr⟩ := foldl_inv calls [] startedState startedState_inv
  set stEnd := calls.foldl (fun st1 c => doCall c st1) startedState with hstEnd
  have hcs : chanSend ⟨Op.OP_EXIT, stEnd.buf, stEnd.used⟩ stEnd
      = (true, { stEnd with
                   sent := stEnd.sent ++ [⟨Op.OP_EXIT, stEnd.buf, stEnd.used⟩] }) := by
    unfold chanSend
    rw [hs]
  have hfin := writer_finish_send_ok stEnd _ hcs
  have hsent : (writer_finish true stEnd).2.2.sent
      = stEnd.sent ++ [⟨Op.OP_EXIT, stEnd.buf, stEnd.used⟩] := by
    rw [hfin]
  obtain ⟨t1, t2, t3⟩ := taskGo_all_ok stEnd.sent ⟨Op.OP_EXIT, stEnd.buf, stEnd.used⟩
    hwf rfl h1
  refine ⟨?_, ?_, ?_⟩
  · show (writer_finish true stEnd).1 = 0
    rw [hfin]
  · show (writer_task_func true [] (writer_finish true stEnd).2.2.sent).file = _
    rw [hsent]
    show (taskGo false [] _).file = _
    rw [t1]
    simpa [sentBytes] using htr
  · show (writer_task_func true [] (writer_finish true stEnd).2.2.sent).signaled = true
    rw [hsent]
    exact t2

/-- C2 (code-bug evidence): writer_start returns 0 even when it fails —
shown here with a NULL path and with a failed mutex allocation — because
writer.cpp:227 reads `return 0;` where every sibling function returns
`ret`.  The remainder of the claim does hold on the failure path: no
resources remain allocated, the state stays Idle (0), and DEFAULT_ERROR,
the value `ret` would have carried, is nonzero. -/
theorem writer_start_swallows_errors :
    (writer_start true true true true true initialState).1 = 0 ∧
    (writer_start true true true true true initialState).2.state = 0 ∧
    (writer_start true true true true true initialState).2.queue = false ∧
    (writer_start true true true true true initialState).2.mutex = false ∧
    (writer_start true true true true true initialState).2.events = false ∧
    (writer_start true true true true true initialState).2.task = false ∧
    (writer_start false true false true true initialState).1 = 0 ∧
    (writer_start false true false true true initialState).2.state = 0 ∧
    (writer_start false true false true true initialState).2.queue = false ∧
    (writer_start false true false true true initialState).2.mutex = false ∧
    DEFAULT_ERROR ≠ 0 := by decide

/-- C4 (code-bug evidence): a second writer_start while a session is
Running returns 0 (not an error), and its failure post-process
(writer.cpp:215-225, keyed on ret being nonzero regardless of the failure
reason) deletes and nulls the live session resources — queue, mutex, event
group and the running task — while the state stays 1, so the first session
is destroyed rather than left unaffected. -/
theorem second_start_clobbers_first_session :
    startedState.state = 1 ∧ startedState.queue = true ∧ startedState.mutex = true ∧
    startedState.events = true ∧ startedState.task = true ∧
    (writer_start false true true true true startedState).1 = 0 ∧
    (writer_start false true true true true startedState).2.state = 1 ∧
    (writer_start false true true true true startedState).2.queue = false ∧
    (writer_start false true true true true startedState).2.mutex = false ∧
    (writer_start false true true true true startedState).2.events = false ∧
    (writer_start false true true true true startedState).2.task = false := by decide

/-- C3 (code-bug evidence): because the state check at writer.cpp:430 sits
under `if (ret)` instead of `if (!ret)`, writer_finish with the gate
acquired never checks the lifecycle state: invoked in state 0 (no session
started) it still returns 0, submits an OP_EXIT command to the channel and
performs the completion wait, where the claim requires a StateError and no
Exit submission outside Running. -/
theorem writer_finish_skips_state_check :
    initialState.state = 0 ∧
    (writer_finish true initialState).1 = 0 ∧
    (writer_finish true initialState).2.1 = true ∧
    hasExit (writer_finish true initialState).2.2.sent = true := by decide

/-- C5 counterexample: finishing a running session succeeds but leaves the
lifecycle state at 0 (Idle), not 2 (Finished): the `state = 2` assignment
at writer.cpp:458 is overwritten by the post-process reset to 0 at
writer.cpp:477. -/
theorem finish_final_state_not_finished :
    (writer_finish true startedState).1 = 0 ∧
    (writer_finish true startedState).2.2.state = 0 ∧
    (writer_finish true startedState).2.2.state ≠ 2 := by decide

/-- C5 (amended): after a successful writer_finish of a Running session
(gate acquired, OP_EXIT queued) all session resources are released (queue,
mutex, event-group and task handles nulled), the buffer state is reset
(active buffer = first plane, used = 0), the completion wait was performed,
and the lifecycle state ends at Idle (0) rather than Finished (2) — state 2
is assigned only transiently — so a subsequent writer_start passes its
state check without any external re-initialization. -/
theorem finish_releases_and_resets (st : WriterState) (hst : st.state = 1)
    (hs : st.sendOk = []) :
    (writer_finish true st).1 = 0 ∧
    (writer_finish true st).2.1 = true ∧
    (writer_finish true st).2.2.queue = false ∧
    (writer_finish true st).2.2.mutex = false ∧
    (writer_finish true st).2.2.events = false ∧
    (writer_finish true st).2.2.task = false ∧
    (writer_finish true st).2.2.curBuff = 1 ∧
    (writer_finish true st).2.2.used = 0 ∧
    (writer_finish true st).2.2.buf = [] ∧
    (writer_finish true st).2.2.state = 0 := by
  have hcs : chanSend ⟨Op.OP_EXIT, st.buf, st.used⟩ st
      = (true, { st with sent := st.sent ++ [⟨Op.OP_EXIT, st.buf, st.used⟩] }) := by
    unfold chanSend
    rw [hs]
  rw [writer_finish_send_ok st _ hcs]
  exact ⟨rfl, rfl, rfl, rfl, rfl, rfl, rfl, rfl, rfl, rfl⟩

/-- Witness for finish_releases_and_resets at the concrete started
session. -/
theorem finish_releases_and_resets_witness :
    (startedState.state = 1 ∧ startedState.sendOk = []) ∧
    ((writer_finish true startedState).1 = 0 ∧
     (writer_finish true startedState).2.1 = true ∧
     (writer_finish true startedState).2.2.queue = false ∧
     (writer_finish true startedState).2.2.mutex = false ∧
     (writer_finish true startedState).2.2.events = false ∧
     (writer_finish true startedState).2.2.task = false ∧
     (writer_finish true startedState).2.2.curBuff = 1 ∧
     (writer_finish true startedState).2.2.used = 0 ∧
     (writer_finish true startedState).2.2.buf = [] ∧
     (writer_finish true startedState).2.2.state = 0) :=
  ⟨⟨by decide, by decide⟩,
   finish_releases_and_resets startedState (by decide) (by decide)⟩

/-- Witness for rotation_threshold: the started session and replicate
batches of the three stated lengths. -/
theorem rotation_threshold_witness :
    (startedState.state = 1 ∧ startedState.sendOk = [] ∧ startedState.used = 0 ∧
     startedState.buf = [] ∧
     (List.replicate BUFF_SIZE 7).length = BUFF_SIZE ∧
     (List.replicate (BUFF_SIZE - 1) 7).length = BUFF_SIZE - 1 ∧
     (List.replicate (2 * BUFF_SIZE + 5) 7).length = 2 * BUFF_SIZE + 5) ∧
    (((writer_push_raw (List.replicate BUFF_SIZE 7) (List.replicate BUFF_SIZE 7).length
         false true startedState).1 = 0 ∧
      (writer_push_raw (List.replicate BUFF_SIZE 7) (List.replicate BUFF_SIZE 7).length
         false true startedState).2.1 = some true ∧
      (writer_push_raw (List.replicate BUFF_SIZE 7) (List.replicate BUFF_SIZE 7).length
         false true startedState).2.2.rotations = startedState.rotations + 1) ∧
     ((writer_push_raw (List.replicate (BUFF_SIZE - 1) 7)
         (List.replicate (BUFF_SIZE - 1) 7).length false true startedState).1 = 0 ∧
      (writer_push_raw (List.replicate (BUFF_SIZE - 1) 7)
         (List.replicate (BUFF_SIZE - 1) 7).length false true startedState).2.1
        = some false ∧
      (writer_push_raw (List.replicate (BUFF_SIZE - 1) 7)
         (List.replicate (BUFF_SIZE - 1) 7).length false true startedState).2.2.rotations
        = startedState.rotations) ∧
     ((writer_push_raw (List.replicate (2 * BUFF_SIZE + 5) 7)
         (List.replicate (2 * BUFF_SIZE + 5) 7).length false true startedState).1 = 0 ∧
      (writer_push_raw (List.replicate (2 * BUFF_SIZE + 5) 7)
         (List.replicate (2 * BUFF_SIZE + 5) 7).length false true startedState).2.1
        = some true ∧
      (writer_push_raw (List.replicate (2 * BUFF_SIZE + 5) 7)
         (List.replicate (2 * BUFF_SIZE + 5) 7).length false true
         startedState).2.2.rotations = startedState.rotations + 2)) :=
  ⟨⟨by decide, by decide, by decide, by decide, by simp, by simp, by simp⟩,
   rotation_threshold startedState (List.replicate BUFF_SIZE 7)
     (List.replicate (BUFF_SIZE - 1) 7) (List.replicate (2 * BUFF_SIZE + 5) 7)
     (by decide) (by decide) (by decide) (by decide) (by simp) (by simp) (by simp)⟩

/-- Witness for buffer_pair_invariant at the load-time state. -/
theorem buffer_pair_invariant_witness :
    BuffInv initialState ∧
    (BuffInv (push_byte 0 false initialState).2.2 ∧
     BuffInv (writer_push_s [] false false initialState).2.2 ∧
     BuffInv (writer_push_raw [] 0 false false initialState).2.2 ∧
     BuffInv (writer_push_b 0 false false initialState).2.2 ∧
     BuffInv (writer_start false true true true true initialState).2 ∧
     BuffInv (writer_finish true initialState).2.2) :=
  ⟨⟨Or.inl rfl, rfl, by decide⟩,
   buffer_pair_invariant initialState 0 0 0 false [] [] false false false
     true true true true true ⟨Or.inl rfl, rfl, by decide⟩⟩

end Writer

